import Mathlib

/-!
Verification of the Gaussian-process covariance engine in
`bsfh/likelihood/gp.py`.

The development embeds the code shallowly:

* the per-variant kernel / covariance constructors (`ExpSquared`,
  `Matern`, `PhotOutlier`) become functions over `ℝ` (or `ℚ` where the
  source arithmetic is exact),
* the caching machinery of the base class `GaussianProcess`
  (`update_params`, `update_data`, `compute`, `lnlikelihood`) becomes an
  explicit state-passing step function over a state record,
* `scipy.linalg.cho_factor` / `cho_solve` are modelled by their
  exact-arithmetic contract: factorization succeeds iff the
  (upper-triangle symmetrised) matrix has positive leading principal
  minors, `log_det = 2*sum(log(diag(factor)))` equals the log of the
  determinant, and `cho_solve(factor_of_A, b)` returns `A⁻¹ b`.
  Since the Cholesky factor of a positive-definite matrix determines the
  matrix and vice versa, the state stores the matrix that was factorized.
-/

open Classical Real

namespace GP

/-- Flux values in the source are either a python scalar (the default
`flux=1`) or a numpy vector; `np.array_equal` distinguishes the two
(shape () vs shape (n)), which structural equality of this sum type
mirrors. -/
inductive FluxVal (α : Type) where
  | scalar (x : α)
  | vector (v : List α)
  deriving DecidableEq

/-- Truncation of a rational toward zero, the semantics of numpy
`astype(int)` on exact values. -/
def ratTrunc (q : ℚ) : ℤ := q.num / (q.den : ℤ)

/-! ## PhotOutlier, exact (`ℚ`) layer

`PhotOutlier.kernel_to_params` and `PhotOutlier.construct_covariance`
(gp.py lines 303-333) involve only exact arithmetic, so they are embedded
computably over `ℚ`. -/

/-- Translation of `PhotOutlier.kernel_to_params` (gp.py 303-313):
`jitter = int(len(kernel) % 2 == 1)`, `nout = (len(kernel) - jitter)/2`,
`amps = kernel[:nout]`, `locs = kernel[nout:2*nout]`, and the final
`jitter` is `kernel[-1]` when the vector length is odd, else the int `0`.
Returns `(jitter, locs, amps)`. -/
def photParams (kernel : List ℚ) : ℚ × List ℚ × List ℚ :=
  let jflag : Nat := kernel.length % 2
  let nout : Nat := (kernel.length - jflag) / 2
  let amps := kernel.take nout
  let locs := (kernel.drop nout).take nout
  let jitter : ℚ := if jflag = 1 then kernel.getLastD 0 else 0
  (jitter, locs, amps)

/-- Numpy index semantics for an integer index into a vector of length
`nw`: indices in `[-nw, nw)` are taken modulo `nw` (negative indices wrap
from the end, as in python). -/
def npIndex (loc : ℤ) (nw : ℕ) : ℕ := (loc.emod nw).toNat

/-- Value added on the diagonal at index `i` by the buffered fancy-index
assignment `Sigma[(locs, locs)] += vals` (gp.py 331).  NumPy's fancy
`+=` does not accumulate over duplicate indices: the value written at a
given index is the one from the last occurrence of that index. -/
def fancyAddAt (pairs : List (ℤ × ℚ)) (nw i : ℕ) : ℚ :=
  ((pairs.filter (fun pr => npIndex pr.1 nw = i)).getLastD (0, 0)).2

/-- Whether `np.all(flux == 1)` holds. -/
def fluxAllOne : FluxVal ℚ → Prop
  | .scalar c => c = 1
  | .vector v => ∀ x ∈ v, x = 1

instance : DecidablePred fluxAllOne := by
  intro f; cases f <;> simp only [fluxAllOne] <;> infer_instance

/-- Translation of `PhotOutlier.construct_covariance` (gp.py 315-333).
The two `assert` statements and the `np.max` of an empty location list
(which raises) are modelled by returning `none`.  The successful result
is the matrix as a list of rows. -/
def photCov (kernel sigma : List ℚ) (fluxIn : FluxVal ℚ) : Option (List (List ℚ)) :=
  let p := photParams kernel
  let jitter := p.1
  let locsInt := p.2.1.map ratTrunc
  let amps := p.2.2
  let nw := sigma.length
  match (if fluxAllOne fluxIn then some (List.replicate nw 1)
         else match fluxIn with
           | .vector v => some v
           -- `len()` of a non-unit python scalar raises `TypeError` at the
           -- first assert, so this case fails
           | .scalar _ => none : Option (List ℚ)) with
  | none => none
  | some flux =>
  match locsInt.max? with
  | none => none
  | some mx =>
    if (mx < (flux.length : ℤ)) ∧ flux.length = nw then
      let vals := (p.2.1.zip amps).map
        (fun la => (la.2 * flux.getD (npIndex (ratTrunc la.1) nw) 0) ^ 2)
      let pairs := locsInt.zip vals
      some ((List.range nw).map (fun i => (List.range nw).map (fun j =>
        if i = j then
          (sigma.getD i 0) ^ 2 + (jitter * flux.getD i 0) ^ 2 + fancyAddAt pairs nw i
        else 0)))
    else none

/-! ## Python call protocol for `predict` on `PhotOutlier` (claim C10)

`GaussianProcess.predict` (gp.py 151-156) passes the wavelength array as
a positional argument to `construct_covariance_cross`.
`PhotOutlier.construct_covariance_cross` (gp.py 335) has signature
`(self, **extras)` and accepts no positional argument, so CPython raises
`TypeError` at the call site.  Were that call to succeed, the subsequent
`construct_covariance_test` call would run the base implementation,
whose call `self.construct_kernel(inwave, inwave)` passes two positional
arguments to the base `construct_kernel(self)` (gp.py 177), again a
`TypeError` (and with no positional arguments the base body raises
`AttributeError` unless a `Sigma` attribute was set by hand).
The embedding models a python call by the number of positional arguments
supplied together with the callee's positional arity. -/

inductive PyErr where
  | typeErr
  | attrErr
  deriving DecidableEq

/-- Call of `PhotOutlier.construct_covariance_cross` with `posArgs`
positional arguments.  The signature `(self, **extras)` accepts zero
positional arguments; its body (gp.py 335-339) builds
`construct_covariance` and subtracts `sigma**2` from the diagonal. -/
def callPhotCross (posArgs : ℕ) (kernel sigma : List ℚ) (fluxIn : FluxVal ℚ) :
    Except PyErr (List (List ℚ)) :=
  if posArgs ≠ 0 then .error .typeErr
  else match photCov kernel sigma fluxIn with
    | none => .error .attrErr
    | some m =>
      .ok ((List.range m.length).map (fun i => (List.range m.length).map (fun j =>
        if i = j then (m.getD i []).getD j 0 - (sigma.getD i 0) ^ 2
        else (m.getD i []).getD j 0)))

/-- Call of the base `GaussianProcess.construct_kernel` with `posArgs`
positional arguments beyond `self` (gp.py 177-188): the signature
accepts zero, and with zero it returns the hand-set `Sigma` attribute or
raises `AttributeError`. -/
def callBaseKernel (posArgs : ℕ) (sigmaAttr : Option (List (List ℚ))) :
    Except PyErr (List (List ℚ)) :=
  if posArgs ≠ 0 then .error .typeErr
  else match sigmaAttr with
    | some m => .ok m
    | none => .error .attrErr

/-- Translation of `GaussianProcess.predict` (gp.py 135-161) specialised
to a `PhotOutlier` instance.  Both branches of the `inwave` test pass one
positional argument (`inwave` resp. `self._wave`) to
`construct_covariance_cross`; the later `construct_covariance_test` call
(not overridden by `PhotOutlier`) reaches the base `construct_kernel`
with two positional arguments.  The posterior mean/covariance arithmetic
is unreachable, as the theorem for claim C10 shows. -/
def photPredict (kernel sigma : List ℚ) (fluxIn : FluxVal ℚ)
    (sigmaAttr : Option (List (List ℚ))) (residual : List ℚ)
    (inwave _influx : Option (List ℚ)) : Except PyErr (List ℚ × List (List ℚ)) := do
  let cross ←
    match inwave with
    | some _ => callPhotCross 1 kernel sigma fluxIn
    | none => callPhotCross 1 kernel sigma fluxIn
  let test ← callBaseKernel 2 sigmaAttr
  pure (residual, cross.zipWith (fun r t => r.zipWith (fun a b => a + b) t) test)

/-! ## ExpSquared / Matern kernel layer over `ℝ`

The smooth kernels (gp.py 228-294) and the base-class covariance
builders (gp.py 190-225) are embedded as functions of the transformed
parameter triple `(s, asq, lsq)` (the result of `kernel_to_params`,
i.e. the componentwise exponential of the raw kernel vector) and of the
coordinate/uncertainty/flux vectors, indexed by `Fin`. -/

noncomputable section

/-- Whether `np.any(flux != 1)` holds for a flux vector. -/
def fluxNontriv {n : ℕ} (flux : Fin n → ℝ) : Prop := ∃ i, flux i ≠ 1

/-- Translation of `ExpSquared.construct_kernel` (gp.py 247-253):
`Sigma = asq * exp(-(xstar[:,None] - x[None,:])**2 / (2 * lsq))`; rows
are indexed by `xstar`, columns by `x`. -/
def esKernel (p : ℝ × ℝ × ℝ) {m n : ℕ} (x : Fin m → ℝ) (xstar : Fin n → ℝ) :
    Matrix (Fin n) (Fin m) ℝ :=
  Matrix.of fun i j => p.2.1 * Real.exp (-(xstar i - x j) ^ 2 / (2 * p.2.2))

/-- Translation of `Matern.construct_kernel` (gp.py 282-289):
`Sigma = sqrt(3) * (xstar[:,None] - x[None,:]) / l` with `l = sqrt(lsq)`
followed by `Sigma = (1 + Sigma) * exp(-Sigma)`.  The source uses the
signed difference (no absolute value) and never multiplies by the
amplitude `a` (the local variable `a = sqrt(asq)` is unused). -/
def maternKernel (p : ℝ × ℝ × ℝ) {m n : ℕ} (x : Fin m → ℝ) (xstar : Fin n → ℝ) :
    Matrix (Fin n) (Fin m) ℝ :=
  Matrix.of fun i j =>
    (1 + Real.sqrt 3 * (xstar i - x j) / Real.sqrt p.2.2) *
      Real.exp (-(Real.sqrt 3 * (xstar i - x j) / Real.sqrt p.2.2))

/-- Translation of the base `GaussianProcess.construct_covariance`
(gp.py 198-207) for a kernel matrix `K` built on `(wave, wave)`:
optional flux scaling `flux[:,None] * Sigma * flux[None,:]` when
`np.any(flux != 1)`, then the diagonal noise `construct_diagonal()` is
added on the diagonal. -/
def baseCov {n : ℕ} (K : Matrix (Fin n) (Fin n) ℝ) (flux : Fin n → ℝ)
    (diagNoise : Fin n → ℝ) : Matrix (Fin n) (Fin n) ℝ :=
  Matrix.of fun i j =>
    (if fluxNontriv flux then flux i * K i j * flux j else K i j) +
      (if i = j then diagNoise i else 0)

/-- Covariance matrix of the `ExpSquared` variant: base builder with the
override `construct_diagonal = sigma**2 + s**2` (gp.py 255-258). -/
def esCov (p : ℝ × ℝ × ℝ) {n : ℕ} (wave sigma flux : Fin n → ℝ) :
    Matrix (Fin n) (Fin n) ℝ :=
  baseCov (esKernel p wave wave) flux (fun i => sigma i ^ 2 + p.1 ^ 2)

/-- Covariance matrix of the `Matern` variant: base builder with the
override `construct_diagonal = sigma**2 + s**2` (gp.py 291-294). -/
def maternCov (p : ℝ × ℝ × ℝ) {n : ℕ} (wave sigma flux : Fin n → ℝ) :
    Matrix (Fin n) (Fin n) ℝ :=
  baseCov (maternKernel p wave wave) flux (fun i => sigma i ^ 2 + p.1 ^ 2)

/-- Translation of `GaussianProcess.construct_covariance_cross`
(gp.py 209-215): kernel on `(self._wave, inwave)`, scaled by
`influx[:,None] * Sigma * self._flux[None,:]` when the training flux is
non-trivial. -/
def crossCovOf {m n : ℕ} (K : Matrix (Fin m) (Fin n) ℝ) (trainflux : Fin n → ℝ)
    (influx : Fin m → ℝ) : Matrix (Fin m) (Fin n) ℝ :=
  Matrix.of fun i j =>
    if fluxNontriv trainflux then influx i * K i j * trainflux j else K i j

/-- Translation of `GaussianProcess.construct_covariance_test`
(gp.py 217-225): kernel on `(inwave, inwave)`, scaled by
`influx[:,None] * Sigma * inwave[None,:]` when the training flux is
non-trivial — note the `inwave` (wavelength) right factor in the source,
line 223 — then `construct_diagonal(test=True)`, i.e. `0.0` in the base
implementation, is added on the diagonal.  (On an `ExpSquared`/`Matern`
instance the call `construct_diagonal(test=True)` itself raises
`TypeError`, since those overrides take no `test` argument; the model
uses the base fallback value `0.0` so that the arithmetic of lines
218-223, which executes before that call, can be stated.) -/
def testCovOf {m n : ℕ} (K : Matrix (Fin m) (Fin m) ℝ) (trainflux : Fin n → ℝ)
    (inwave influx : Fin m → ℝ) : Matrix (Fin m) (Fin m) ℝ :=
  Matrix.of fun i j =>
    (if fluxNontriv trainflux then influx i * K i j * inwave j else K i j) +
      (if i = j then (0 : ℝ) else 0)

/-- Cross-covariance builder dispatched on `ExpSquared`. -/
def esCross (p : ℝ × ℝ × ℝ) {m n : ℕ} (wave trainflux : Fin n → ℝ)
    (inwave influx : Fin m → ℝ) : Matrix (Fin m) (Fin n) ℝ :=
  crossCovOf (esKernel p wave inwave) trainflux influx

/-- Test-covariance builder dispatched on `ExpSquared`. -/
def esTest (p : ℝ × ℝ × ℝ) {m n : ℕ} (trainflux : Fin n → ℝ)
    (inwave influx : Fin m → ℝ) : Matrix (Fin m) (Fin m) ℝ :=
  testCovOf (esKernel p inwave inwave) trainflux inwave influx

/-- Model of `scipy.linalg.cho_solve((factor, lower), b)` for a vector
right-hand side: the triangular solves return exactly `A⁻¹ b` where `A`
is the matrix whose factor was cached; the state machinery below stores
`A` itself as the representation of its factor. -/
def choSolveV {n : ℕ} (A : Matrix (Fin n) (Fin n) ℝ) (b : Fin n → ℝ) : Fin n → ℝ :=
  A⁻¹.mulVec b

/-- Model of `cho_solve` for a matrix right-hand side (column-wise
solves): returns `A⁻¹ * B`. -/
def choSolveM {n : ℕ} (A B : Matrix (Fin n) (Fin n) ℝ) : Matrix (Fin n) (Fin n) ℝ :=
  A⁻¹ * B

/-- Translation of `GaussianProcess.predict` (gp.py 135-161) on an
`ExpSquared` instance, in-sample branch (`inwave is None`): the source
calls `construct_covariance_cross(self._wave, influx=self._flux)` and
`construct_covariance_test(self._wave, influx=self._flux)`, then returns
`mu = Sigma_cross . cho_solve(factor, residual)` and
`cov = Sigma_test - Sigma_cross . cho_solve(factor, -Sigma_cross.T)`
(note the sign of `-Sigma_cross.T` on line 160). -/
def predictInSampleES (p : ℝ × ℝ × ℝ) {n : ℕ} (wave _sigma flux : Fin n → ℝ)
    (fact : Matrix (Fin n) (Fin n) ℝ) (residual : Fin n → ℝ) :
    (Fin n → ℝ) × Matrix (Fin n) (Fin n) ℝ :=
  let S := esCross p wave flux wave flux
  let T := esTest p flux wave flux
  (S.mulVec (choSolveV fact residual), T - S * choSolveM fact (-(S.transpose)))

/-- Parameters, factorization and prediction result for the concrete
in-sample `predict` scenario of claim C3: one data point at wavelength
`0` with uncertainty `1`, trivial flux, parameters `(s, a², l²) = (1, 1, 1)`,
residual `2`; the cached factorization is that of the training
covariance. -/
def c3p : ℝ × ℝ × ℝ := (1, 1, 1)

/-- Training covariance cached by `compute` in the C3 scenario. -/
def c3fact : Matrix (Fin 1) (Fin 1) ℝ := esCov c3p ![0] ![1] ![1]

/-- Value returned by `predict` in the C3 scenario. -/
def c3res : (Fin 1 → ℝ) × Matrix (Fin 1) (Fin 1) ℝ :=
  predictInSampleES c3p ![0] ![1] ![1] c3fact ![2]

/-! ## The caching state machine of `GaussianProcess`

The base-class methods `update_params`, `update_data` and `compute`
(gp.py 37-115) reach the variant-specific `kernel_to_params` and
`construct_covariance` only through dynamic dispatch, so the machine is
parametrised by a `GPVariant` record bundling those overrides.  Data
vectors are lists (their length is dynamic in the source) and the
covariance is a list of rows; `np.array_equal` on cached quantities is
structural equality. -/

/-- State of a `GaussianProcess` instance: the caller-owned raw `kernel`
vector, the cached transformed parameters `_params`, the cached data
`_wave`/`_sigma`/`_flux`, the two cleanliness flags, and the cached
factorization together with its `log_det`.  The factorization is
represented by the matrix that was factorized (see the module
docstring); `log_det = 0` stands for the attribute not existing yet — it
is only ever read after a `compute` that sets it. -/
structure GPState (P : Type) where
  kernel : List ℝ
  _params : Option P
  _wave : Option (List ℝ)
  _sigma : Option (List ℝ)
  _flux : FluxVal ℝ
  params_clean : Bool
  data_clean : Bool
  factorized_Sigma : Option (List (List ℝ))
  log_det : ℝ

/-- A kernel variant, i.e. the subclass overrides consumed by the
base-class machinery: the declared parameter count
(`kernel_properties[0]`), `kernel_to_params`, and the dispatched
`construct_covariance`. -/
structure GPVariant (P : Type) where
  npar : ℕ
  kernel_to_params : List ℝ → P
  construct_covariance : P → List ℝ → List ℝ → FluxVal ℝ → List (List ℝ)

/-- Entry `(i, j)` of a row-list matrix. -/
def entryLL (m : List (List ℝ)) (i j : ℕ) : ℝ := (m.getD i []).getD j 0

/-- The symmetric matrix actually read by LAPACK `potrf` (through
`scipy.cho_factor` with its default `lower=False`): only the upper
triangle of the input is referenced. -/
def symUp (m : List (List ℝ)) (i j : ℕ) : ℝ :=
  if i ≤ j then entryLL m i j else entryLL m j i

/-- Matrix view of a row-list matrix as read by the factorization. -/
def matSymL (m : List (List ℝ)) : Matrix (Fin m.length) (Fin m.length) ℝ :=
  Matrix.of fun i j => symUp m i.1 j.1

/-- Leading principal minor of order `k + 1` of the referenced symmetric
matrix. -/
def leadMinor (m : List (List ℝ)) (k : ℕ) : ℝ :=
  Matrix.det (Matrix.of fun i j : Fin (k + 1) => symUp m i.1 j.1)

/-- Exact-arithmetic success criterion of `cho_factor` (gp.py 110): the
pivots of the Cholesky recursion are quotients of consecutive leading
principal minors, so factorization succeeds iff all leading principal
minors are positive; the diagonal of the factor is then positive, hence
`log_det = 2*sum(log(diag(factor)))` is finite and the
`assert np.isfinite(self.log_det)` of gp.py 113 passes.  Failure of the
criterion models the `LinAlgError` raised by `cho_factor` (or a
non-finite `log_det`). -/
def cholOk (m : List (List ℝ)) : Prop :=
  ∀ k, k + 1 ≤ m.length → 0 < leadMinor m k

/-- Cached `log_det = 2*sum(log(diag(factor)))` (gp.py 112), which in
exact arithmetic equals the log-determinant of the factorized matrix. -/
noncomputable def logDetOf (m : List (List ℝ)) : ℝ := Real.log (matSymL m).det

/-- Translation of `GaussianProcess.update_params` (gp.py 49-58):
`params = kernel_to_params(kernel)`;
`params_clean = np.array_equal(params, _params)`; `_params = params`.
The flag is *assigned* the equality result: when the freshly transformed
parameters coincide with the previously cached ones the flag becomes
`true` even if it was `false` before — unlike `update_data`, which
combines with logical AND. -/
noncomputable def updateParams {P : Type} (V : GPVariant P) (st : GPState P) :
    GPState P :=
  { st with
    params_clean :=
      (if st._params = some (V.kernel_to_params st.kernel) then true else false),
    _params := some (V.kernel_to_params st.kernel) }

/-- Translation of `GaussianProcess.update_data` (gp.py 60-76): every
argument that is not `None` is compared (`np.array_equal`) with the
cached value and then overwrites the cache; `data_clean` is combined by
logical AND across the three quantities and with its previous value. -/
noncomputable def updateData {P : Type} (st : GPState P)
    (wave sigma : Option (List ℝ)) (flux : Option (FluxVal ℝ)) : GPState P :=
  { st with
    _wave := (match wave with | none => st._wave | some w => some w),
    _sigma := (match sigma with | none => st._sigma | some sg => some sg),
    _flux := (match flux with | none => st._flux | some fl => fl),
    data_clean := st.data_clean &&
      ((match wave with
        | none => true
        | some w => if st._wave = some w then true else false) &&
       ((match sigma with
         | none => true
         | some sg => if st._sigma = some sg then true else false) &&
        (match flux with
         | none => true
         | some fl => if st._flux = fl then true else false))) }

/-- Outcome of one `compute` call: `cheap` (clean cache, factorization
untouched), `rebuilt` (one successful factorization), or `failed` (the
call raised: `cho_factor` failed / `log_det` non-finite, or a still-unset
attribute was used).  Each carries the state the call leaves behind —
python exceptions propagate but mutations made before the raise
persist. -/
inductive ComputeResult (P : Type) where
  | cheap (st : GPState P)
  | rebuilt (st : GPState P)
  | failed (st : GPState P)

/-- How often the `compute` call went to the rebuild path (`0` for the
cheap path, `1` otherwise). -/
def rebuildCount {P : Type} : ComputeResult P → ℕ
  | .cheap _ => 0
  | .rebuilt _ => 1
  | .failed _ => 1

/-- Translation of `GaussianProcess.compute` (gp.py 78-115):
`update_params()`; `update_data(wave, sigma, flux)`; if both flags are
clean and not `force`, return without touching the factorization;
otherwise build the covariance through the dispatched
`construct_covariance`, factorize, cache factor and finiteness-checked
`log_det`, and only then set both cleanliness flags to `true`.  A failed
factorization leaves the state as mutated so far (`cho_factor` raises
before the assignment to `factorized_Sigma`). -/
noncomputable def computeStep {P : Type} (V : GPVariant P) (st : GPState P)
    (wave sigma : Option (List ℝ)) (flux : Option (FluxVal ℝ)) (force : Bool) :
    ComputeResult P :=
  let u := updateData (updateParams V st) wave sigma flux
  if u.params_clean && u.data_clean && !force then .cheap u
  else
    match u._params, u._wave, u._sigma with
    | some p, some w, some sg =>
      if cholOk (V.construct_covariance p w sg u._flux) then
        .rebuilt { u with
          factorized_Sigma := some (V.construct_covariance p w sg u._flux),
          log_det := logDetOf (V.construct_covariance p w sg u._flux),
          data_clean := true, params_clean := true }
      else .failed u
    | _, _, _ => .failed u

/-- Caller-side mutation of the public `kernel` attribute (the sampler
overwrites `gp.kernel` in place before calling `compute`). -/
def setKernel {P : Type} (st : GPState P) (k : List ℝ) : GPState P :=
  { st with kernel := k }

/-- Translation of `GaussianProcess.__init__` and `reset` (gp.py 7-47):
blank all cached values, install the kernel vector (zeros of length
`kernel_properties[0]` when absent), clear both flags, then
`update_data(wave, sigma, flux)`. -/
noncomputable def initGP {P : Type} (V : GPVariant P) (wave sigma : Option (List ℝ))
    (kernel : Option (List ℝ)) (flux : FluxVal ℝ) : GPState P :=
  updateData
    { kernel := (match kernel with | none => List.replicate V.npar 0 | some k => k),
      _params := none, _wave := none, _sigma := none, _flux := .scalar 1,
      params_clean := false, data_clean := false,
      factorized_Sigma := none, log_det := 0 }
    wave sigma (some flux)

/-- The quantity `np.dot(residual, cho_solve(self.factorized_Sigma,
residual))` of gp.py 128-130, under the `cho_solve` contract
`cho_solve(factor_of_A, b) = A⁻¹ b`. -/
noncomputable def residFirstTerm (m : List (List ℝ)) (r : List ℝ) : ℝ :=
  Finset.univ.sum fun i : Fin m.length =>
    r.getD i.1 0 * (matSymL m)⁻¹.mulVec (fun j => r.getD j.1 0) i

/-- Translation of `GaussianProcess.lnlikelihood` (gp.py 117-133):
assert that the residual length matches the cached uncertainty vector
(`len(None)` raises when no data was ever set), call `compute()` with
all-default arguments, then return
`-0.5 * (residual . cho_solve(factor, residual) + log_det + n*log(2π))`.
Any raise (assert failure, raising `compute`, `cho_solve(None, ...)`) is
`none`. -/
noncomputable def lnlikelihoodStep {P : Type} (V : GPVariant P) (st : GPState P)
    (residual : List ℝ) : Option (GPState P × ℝ) :=
  match st._sigma with
  | none => none
  | some sg =>
    if residual.length = sg.length then
      match computeStep V st none none none false with
      | .cheap st' | .rebuilt st' =>
        match st'.factorized_Sigma with
        | some m =>
          some (st', -(1 / 2) * (residFirstTerm m residual + st'.log_det +
            residual.length * Real.log (2 * Real.pi)))
        | none => none
      | .failed _ => none
    else none

/-! ### The concrete variants as machine instances -/

/-- `ExpSquared.kernel_to_params` (gp.py 234-245): the componentwise
exponential of the raw 3-vector `log(s, a², l²)`. -/
noncomputable def esParams (k : List ℝ) : ℝ × ℝ × ℝ :=
  (Real.exp (k.getD 0 0), Real.exp (k.getD 1 0), Real.exp (k.getD 2 0))

/-- `Matern.kernel_to_params` (gp.py 267-280): the same componentwise
exponential of the raw 3-vector. -/
noncomputable def maternParams (k : List ℝ) : ℝ × ℝ × ℝ :=
  (Real.exp (k.getD 0 0), Real.exp (k.getD 1 0), Real.exp (k.getD 2 0))

/-- Whether `np.any(flux != 1)` holds for a cached flux value. -/
def fluxNontrivL : FluxVal ℝ → Prop
  | .scalar c => c ≠ 1
  | .vector v => ∃ x ∈ v, x ≠ 1

/-- Flux value at index `i` under numpy broadcasting.  (A non-unit
*scalar* flux would raise in the source when sliced as `flux[:,None]`;
no modelled scenario uses one.) -/
def fluxValAt : FluxVal ℝ → ℕ → ℝ
  | .scalar c, _ => c
  | .vector v, i => v.getD i 0

/-- The base `construct_covariance` (gp.py 198-207) dispatching to the
`ExpSquared` kernel and diagonal, on list data: the machine-level
counterpart of `esCov`. -/
noncomputable def esCovList (p : ℝ × ℝ × ℝ) (wave sigma : List ℝ) (flux : FluxVal ℝ) :
    List (List ℝ) :=
  (List.range wave.length).map fun i => (List.range wave.length).map fun j =>
    (if fluxNontrivL flux then
        fluxValAt flux i *
          (p.2.1 * Real.exp (-(wave.getD i 0 - wave.getD j 0) ^ 2 / (2 * p.2.2))) *
          fluxValAt flux j
      else p.2.1 * Real.exp (-(wave.getD i 0 - wave.getD j 0) ^ 2 / (2 * p.2.2))) +
      (if i = j then (sigma.getD i 0) ^ 2 + p.1 ^ 2 else 0)

/-- The base `construct_covariance` dispatching to the `Matern` kernel
(gp.py 282-289) and diagonal, on list data. -/
noncomputable def maternCovList (p : ℝ × ℝ × ℝ) (wave sigma : List ℝ)
    (flux : FluxVal ℝ) : List (List ℝ) :=
  (List.range wave.length).map fun i => (List.range wave.length).map fun j =>
    (if fluxNontrivL flux then
        fluxValAt flux i *
          ((1 + Real.sqrt 3 * (wave.getD i 0 - wave.getD j 0) / Real.sqrt p.2.2) *
            Real.exp (-(Real.sqrt 3 * (wave.getD i 0 - wave.getD j 0) / Real.sqrt p.2.2))) *
          fluxValAt flux j
      else
        (1 + Real.sqrt 3 * (wave.getD i 0 - wave.getD j 0) / Real.sqrt p.2.2) *
          Real.exp (-(Real.sqrt 3 * (wave.getD i 0 - wave.getD j 0) / Real.sqrt p.2.2))) +
      (if i = j then (sigma.getD i 0) ^ 2 + p.1 ^ 2 else 0)

/-- The `ExpSquared` variant as seen by the base-class machinery. -/
noncomputable def esVariant : GPVariant (ℝ × ℝ × ℝ) :=
  { npar := 3, kernel_to_params := esParams, construct_covariance := esCovList }

/-- The `Matern` variant as seen by the base-class machinery. -/
noncomputable def maternVariant : GPVariant (ℝ × ℝ × ℝ) :=
  { npar := 3, kernel_to_params := maternParams, construct_covariance := maternCovList }

/-! ### Concrete machine runs

`es0 → es1` is a successful `compute` on a one-point `ExpSquared`
engine; the `c1*` states then realise the staleness scenario of claim
C1, and the `m*` states the failing-rebuild scenario of claim C9. -/

/-- Fresh one-point `ExpSquared` engine:
`ExpSquared(wave=[0], sigma=[1])` with `kernel = [0, 0, 0]`. -/
noncomputable def es0 : GPState (ℝ × ℝ × ℝ) :=
  initGP esVariant (some [0]) (some [1]) (some [0, 0, 0]) (.scalar 1)

/-- State after the first successful `compute` on `es0`. -/
noncomputable def es1 : GPState (ℝ × ℝ × ℝ) :=
  { kernel := [0, 0, 0], _params := some (esParams [0, 0, 0]),
    _wave := some [0], _sigma := some [1], _flux := .scalar 1,
    params_clean := true, data_clean := true,
    factorized_Sigma := some (esCovList (esParams [0, 0, 0]) [0] [1] (.scalar 1)),
    log_det := logDetOf (esCovList (esParams [0, 0, 0]) [0] [1] (.scalar 1)) }

/-- `es1` after the caller overwrites the kernel vector with `[1, 0, 0]`
and calls `update_params()` once. -/
noncomputable def c1s2 : GPState (ℝ × ℝ × ℝ) :=
  updateParams esVariant (setKernel es1 [1, 0, 0])

/-- `c1s2` after a second `update_params()` call. -/
noncomputable def c1s3 : GPState (ℝ × ℝ × ℝ) :=
  updateParams esVariant c1s2

/-- The state served by the cheap path of the final `compute` in the C1
scenario: both flags clean, new parameters cached, but the factorization
still the one built from the old parameters. -/
noncomputable def c1final : GPState (ℝ × ℝ × ℝ) :=
  { kernel := [1, 0, 0], _params := some (esParams [1, 0, 0]),
    _wave := some [0], _sigma := some [1], _flux := .scalar 1,
    params_clean := true, data_clean := true,
    factorized_Sigma := some (esCovList (esParams [0, 0, 0]) [0] [1] (.scalar 1)),
    log_det := logDetOf (esCovList (esParams [0, 0, 0]) [0] [1] (.scalar 1)) }

/-- Fresh two-point `Matern` engine whose covariance is not positive
definite: `Matern(wave=[0, 3], sigma=[1, 1])` with
`kernel = [0, 0, log 3]`, i.e. `(s, a², l²) = (1, 1, 3)`; the signed
Matern kernel gives the off-diagonal value `-2e³`, which dwarfs the
diagonal `3`. -/
noncomputable def m0 : GPState (ℝ × ℝ × ℝ) :=
  initGP maternVariant (some [0, 3]) (some [1, 1]) (some [0, 0, Real.log 3]) (.scalar 1)

/-- State left behind by the first (failing) `compute` on `m0`. -/
noncomputable def m1 : GPState (ℝ × ℝ × ℝ) :=
  { kernel := [0, 0, Real.log 3], _params := some (maternParams [0, 0, Real.log 3]),
    _wave := some [0, 3], _sigma := some [1, 1], _flux := .scalar 1,
    params_clean := false, data_clean := false,
    factorized_Sigma := none, log_det := 0 }

/-- State left behind by the second (again failing) `compute` on `m1`:
identical except that `update_params` has upgraded `params_clean`. -/
noncomputable def m2 : GPState (ℝ × ℝ × ℝ) :=
  { m1 with params_clean := true }

end

/-! ## Helper lemmas -/

lemma not_fluxNontriv_one1 : ¬ fluxNontriv ![(1 : ℝ)] := by
  rintro ⟨i, hi⟩
  fin_cases i
  simp at hi

lemma not_fluxNontriv_ones2 : ¬ fluxNontriv ![(1 : ℝ), 1] := by
  rintro ⟨i, hi⟩
  fin_cases i <;> simp at hi

lemma sqrt3_mul_div (x : ℝ) : Real.sqrt 3 * x / Real.sqrt 3 = x := by
  rw [mul_comm, mul_div_assoc, div_self (Real.sqrt_ne_zero'.mpr (by norm_num)), mul_one]

lemma matInvFinOne (A : Matrix (Fin 1) (Fin 1) ℝ) : A⁻¹ 0 0 = (A 0 0)⁻¹ := by
  rw [Matrix.inv_def, Matrix.adjugate_fin_one, Matrix.det_fin_one]
  simp [Matrix.smul_apply, Matrix.one_apply_eq, Ring.inverse_eq_inv']

lemma esKernel_c3_val : esKernel c3p ![0] ![0] 0 0 = 1 := by
  simp [esKernel, c3p]

lemma c3fact_val : c3fact 0 0 = 3 := by
  simp [c3fact, esCov, baseCov, esKernel, c3p, if_neg not_fluxNontriv_one1]
  norm_num

/-! ### Machine lemmas -/

@[simp] lemma updateParams_kernel {P : Type} (V : GPVariant P) (st : GPState P) :
    (updateParams V st).kernel = st.kernel := by cases st; rfl

@[simp] lemma updateParams_wave {P : Type} (V : GPVariant P) (st : GPState P) :
    (updateParams V st)._wave = st._wave := by cases st; rfl

@[simp] lemma updateParams_sigma {P : Type} (V : GPVariant P) (st : GPState P) :
    (updateParams V st)._sigma = st._sigma := by cases st; rfl

@[simp] lemma updateParams_flux {P : Type} (V : GPVariant P) (st : GPState P) :
    (updateParams V st)._flux = st._flux := by cases st; rfl

@[simp] lemma updateParams_data_clean {P : Type} (V : GPVariant P) (st : GPState P) :
    (updateParams V st).data_clean = st.data_clean := by cases st; rfl

@[simp] lemma updateParams_params {P : Type} (V : GPVariant P) (st : GPState P) :
    (updateParams V st)._params = some (V.kernel_to_params st.kernel) := by cases st; rfl

lemma updateParams_params_clean {P : Type} (V : GPVariant P) (st : GPState P) :
    (updateParams V st).params_clean =
      (if st._params = some (V.kernel_to_params st.kernel) then true else false) := by
  cases st; rfl

@[simp] lemma updateData_kernel {P : Type} (st : GPState P)
    (wave sigma : Option (List ℝ)) (flux : Option (FluxVal ℝ)) :
    (updateData st wave sigma flux).kernel = st.kernel := by cases st; rfl

@[simp] lemma updateData_params {P : Type} (st : GPState P)
    (wave sigma : Option (List ℝ)) (flux : Option (FluxVal ℝ)) :
    (updateData st wave sigma flux)._params = st._params := by cases st; rfl

@[simp] lemma updateData_params_clean {P : Type} (st : GPState P)
    (wave sigma : Option (List ℝ)) (flux : Option (FluxVal ℝ)) :
    (updateData st wave sigma flux).params_clean = st.params_clean := by cases st; rfl

lemma updateParams_noop {P : Type} (V : GPVariant P) (st : GPState P)
    (hp : st.params_clean = true)
    (hP : st._params = some (V.kernel_to_params st.kernel)) :
    updateParams V st = st := by
  cases st with
  | mk k pr w s f pc dc fs ld =>
    dsimp only at hp hP
    subst hp
    simp [updateParams, hP]

lemma updateData_noop {P : Type} (st : GPState P) (hd : st.data_clean = true) :
    updateData st none none none = st := by
  cases st with
  | mk k pr w s f pc dc fs ld =>
    dsimp only at hd
    subst hd
    simp [updateData]

lemma updateData_noop_same {P : Type} (st : GPState P) (hd : st.data_clean = true) :
    updateData st st._wave st._sigma (some st._flux) = st := by
  cases st with
  | mk k pr w s f pc dc fs ld =>
    dsimp only at hd ⊢
    subst hd
    cases w <;> cases s <;> simp [updateData]

lemma computeStep_cheap_of_clean {P : Type} (V : GPVariant P) (st : GPState P)
    (hp : st.params_clean = true) (hd : st.data_clean = true)
    (hP : st._params = some (V.kernel_to_params st.kernel)) :
    computeStep V st none none none false = .cheap st := by
  simp only [computeStep, updateParams_noop V st hp hP, updateData_noop st hd]
  rw [if_pos]
  rw [hp, hd]
  rfl

lemma computeStep_cheap_of_clean_same {P : Type} (V : GPVariant P) (st : GPState P)
    (hp : st.params_clean = true) (hd : st.data_clean = true)
    (hP : st._params = some (V.kernel_to_params st.kernel)) :
    computeStep V st st._wave st._sigma (some st._flux) false = .cheap st := by
  simp only [computeStep, updateParams_noop V st hp hP, updateData_noop_same st hd]
  rw [if_pos]
  rw [hp, hd]
  rfl

lemma computeStep_rebuildCount_of_not_cheap {P : Type} (V : GPVariant P) (st : GPState P)
    (wave sigma : Option (List ℝ)) (flux : Option (FluxVal ℝ)) (force : Bool)
    (hcond : ((updateData (updateParams V st) wave sigma flux).params_clean &&
      (updateData (updateParams V st) wave sigma flux).data_clean && !force) = false) :
    rebuildCount (computeStep V st wave sigma flux force) = 1 := by
  simp only [computeStep, hcond]
  rw [if_neg (by simp : ¬ (false = true))]
  split
  · split
    · rfl
    · rfl
  · rfl

lemma updateData_dc_false_of_wave_ne {P : Type} (st : GPState P) (w' : List ℝ)
    (sigma : Option (List ℝ)) (flux : Option (FluxVal ℝ)) (hne : st._wave ≠ some w') :
    (updateData st (some w') sigma flux).data_clean = false := by
  cases st with
  | mk k pr w s f pc dc fs ld =>
    dsimp only at hne
    simp [updateData, if_neg hne]

lemma updateData_dc_false_of_sigma_ne {P : Type} (st : GPState P) (s' : List ℝ)
    (wave : Option (List ℝ)) (flux : Option (FluxVal ℝ)) (hne : st._sigma ≠ some s') :
    (updateData st wave (some s') flux).data_clean = false := by
  cases st with
  | mk k pr w s f pc dc fs ld =>
    dsimp only at hne
    simp [updateData, if_neg hne]

lemma computeStep_rebuild_of_params_ne {P : Type} (V : GPVariant P) (st : GPState P)
    (wave sigma : Option (List ℝ)) (flux : Option (FluxVal ℝ)) (force : Bool)
    (hne : st._params ≠ some (V.kernel_to_params st.kernel)) :
    rebuildCount (computeStep V st wave sigma flux force) = 1 := by
  apply computeStep_rebuildCount_of_not_cheap
  rw [updateData_params_clean, updateParams_params_clean, if_neg hne]
  rfl

lemma computeStep_rebuild_of_wave_ne {P : Type} (V : GPVariant P) (st : GPState P)
    (w' : List ℝ) (sigma : Option (List ℝ)) (flux : Option (FluxVal ℝ)) (force : Bool)
    (hne : st._wave ≠ some w') :
    rebuildCount (computeStep V st (some w') sigma flux force) = 1 := by
  apply computeStep_rebuildCount_of_not_cheap
  rw [updateData_dc_false_of_wave_ne]
  · simp
  · rw [updateParams_wave]; exact hne

lemma computeStep_rebuild_of_sigma_ne {P : Type} (V : GPVariant P) (st : GPState P)
    (s' : List ℝ) (wave : Option (List ℝ)) (flux : Option (FluxVal ℝ)) (force : Bool)
    (hne : st._sigma ≠ some s') :
    rebuildCount (computeStep V st wave (some s') flux force) = 1 := by
  apply computeStep_rebuildCount_of_not_cheap
  rw [updateData_dc_false_of_sigma_ne]
  · simp
  · rw [updateParams_sigma]; exact hne

lemma computeStep_rebuilt_inv {P : Type} (V : GPVariant P) (st st1 : GPState P)
    (wave sigma : Option (List ℝ)) (flux : Option (FluxVal ℝ)) (force : Bool)
    (h : computeStep V st wave sigma flux force = .rebuilt st1) :
    st1.params_clean = true ∧ st1.data_clean = true ∧ st1.kernel = st.kernel ∧
    st1._params = some (V.kernel_to_params st.kernel) ∧
    ∃ wv sv, st1._wave = some wv ∧ st1._sigma = some sv ∧
      cholOk (V.construct_covariance (V.kernel_to_params st.kernel) wv sv st1._flux) ∧
      st1.factorized_Sigma =
        some (V.construct_covariance (V.kernel_to_params st.kernel) wv sv st1._flux) ∧
      st1.log_det =
        logDetOf (V.construct_covariance (V.kernel_to_params st.kernel) wv sv st1._flux) := by
  simp only [computeStep] at h
  split at h
  · exact absurd h (by simp)
  · split at h
    · next p w sg hp hw hs =>
      split at h
      · next hchol =>
        injection h with h1
        subst h1
        have hp2 : p = V.kernel_to_params st.kernel := by
          rw [updateData_params, updateParams_params] at hp
          exact (Option.some.inj hp).symm
        subst hp2
        refine ⟨rfl, rfl, by simp, by simp [hp], w, sg, by simp [hw], by simp [hs],
          ?_, ?_, ?_⟩
        · simpa using hchol
        · simp
        · simp
      · exact absurd h (by simp)
    · exact absurd h (by simp)

/-! ### Concrete run lemmas -/

lemma es0_eq : es0 =
    ⟨[0, 0, 0], none, some [0], some [1], .scalar 1, false, false, none, 0⟩ := by
  simp [es0, initGP, updateData]

lemma cholOk_es000 : cholOk (esCovList (esParams [0, 0, 0]) [0] [1] (.scalar 1)) := by
  intro k hk
  have hlen : (esCovList (esParams [0, 0, 0]) [0] [1] (.scalar 1)).length = 1 := by
    simp [esCovList]
  rw [hlen] at hk
  have hk0 : k = 0 := by omega
  subst hk0
  rw [leadMinor, Matrix.det_fin_one]
  simp only [Matrix.of_apply, symUp, le_refl, if_pos, entryLL]
  simp [esCovList, fluxNontrivL, esParams]
  positivity

lemma esRun1 : computeStep esVariant es0 none none none false = .rebuilt es1 := by
  rw [es0_eq]
  simp only [computeStep, updateParams, updateData, esVariant]
  simp only [reduceCtorEq, if_false]
  rw [if_neg (by simp)]
  rw [if_pos cholOk_es000]
  rfl

lemma esParams_100_ne_000 : esParams [1, 0, 0] ≠ esParams [0, 0, 0] := by
  intro h
  have h1 := congrArg Prod.fst h
  simp only [esParams, List.getD] at h1
  norm_num [Real.exp_eq_exp] at h1

lemma c1s2_eq : c1s2 =
    { es1 with
      kernel := [1, 0, 0]
      _params := some (esParams [1, 0, 0])
      params_clean := false } := by
  simp only [c1s2, updateParams, setKernel, es1, esVariant]
  rw [if_neg (fun hsome => esParams_100_ne_000 (Option.some.inj hsome).symm)]

lemma c1s3_eq : c1s3 = c1final := by
  rw [c1s3, c1s2_eq]
  simp [updateParams, es1, c1final, esVariant]

lemma c1cheap : computeStep esVariant c1s3 none none none false = .cheap c1final := by
  rw [c1s3_eq]
  exact computeStep_cheap_of_clean esVariant c1final rfl rfl rfl

lemma getD_range_map {α : Type} (n i : ℕ) (hi : i < n) (f : ℕ → α) (d : α) :
    ((List.range n).map f).getD i d = f i := by
  rw [List.getD_eq_getElem?_getD, List.getElem?_map, List.getElem?_range hi]
  rfl

lemma esCovList_entry (p : ℝ × ℝ × ℝ) (wave sigma : List ℝ) (fl : FluxVal ℝ)
    (i j : ℕ) (hi : i < wave.length) (hj : j < wave.length) :
    entryLL (esCovList p wave sigma fl) i j =
      (if fluxNontrivL fl then
          fluxValAt fl i *
            (p.2.1 * Real.exp (-(wave.getD i 0 - wave.getD j 0) ^ 2 / (2 * p.2.2))) *
            fluxValAt fl j
        else p.2.1 * Real.exp (-(wave.getD i 0 - wave.getD j 0) ^ 2 / (2 * p.2.2))) +
        (if i = j then (sigma.getD i 0) ^ 2 + p.1 ^ 2 else 0) := by
  unfold entryLL esCovList
  rw [getD_range_map _ _ hi, getD_range_map _ _ hj]

lemma maternCovList_entry (p : ℝ × ℝ × ℝ) (wave sigma : List ℝ) (fl : FluxVal ℝ)
    (i j : ℕ) (hi : i < wave.length) (hj : j < wave.length) :
    entryLL (maternCovList p wave sigma fl) i j =
      (if fluxNontrivL fl then
          fluxValAt fl i *
            ((1 + Real.sqrt 3 * (wave.getD i 0 - wave.getD j 0) / Real.sqrt p.2.2) *
              Real.exp (-(Real.sqrt 3 * (wave.getD i 0 - wave.getD j 0) / Real.sqrt p.2.2))) *
            fluxValAt fl j
        else
          (1 + Real.sqrt 3 * (wave.getD i 0 - wave.getD j 0) / Real.sqrt p.2.2) *
            Real.exp (-(Real.sqrt 3 * (wave.getD i 0 - wave.getD j 0) / Real.sqrt p.2.2))) +
        (if i = j then (sigma.getD i 0) ^ 2 + p.1 ^ 2 else 0) := by
  unfold entryLL maternCovList
  rw [getD_range_map _ _ hi, getD_range_map _ _ hj]

lemma m0_eq : m0 =
    ⟨[0, 0, Real.log 3], none, some [0, 3], some [1, 1], .scalar 1,
      false, false, none, 0⟩ := by
  simp [m0, initGP, updateData]

lemma matern_bad_entry_01 :
    entryLL (maternCovList (maternParams [0, 0, Real.log 3]) [0, 3] [1, 1]
      (.scalar 1)) 0 1 = -2 * Real.exp 3 := by
  rw [maternCovList_entry _ _ _ _ 0 1 (by norm_num) (by norm_num)]
  rw [if_neg (by simp [fluxNontrivL])]
  simp only [maternParams, List.getD_cons_zero, List.getD_cons_succ]
  rw [Real.exp_log (by norm_num : (0:ℝ) < 3)]
  rw [show Real.sqrt 3 * ((0:ℝ) - 3) / Real.sqrt 3 = -3 by rw [sqrt3_mul_div]; norm_num]
  norm_num

lemma matern_bad_entry_diag (i : ℕ) (hi : i < 2) :
    entryLL (maternCovList (maternParams [0, 0, Real.log 3]) [0, 3] [1, 1]
      (.scalar 1)) i i = 3 := by
  interval_cases i <;>
  · rw [maternCovList_entry _ _ _ _ _ _ (by norm_num) (by norm_num)]
    rw [if_neg (by simp [fluxNontrivL])]
    simp only [maternParams, List.getD_cons_zero, List.getD_cons_succ]
    norm_num [Real.exp_zero]

lemma notCholOk_matern :
    ¬ cholOk (maternCovList (maternParams [0, 0, Real.log 3]) [0, 3] [1, 1]
      (.scalar 1)) := by
  intro hc
  have hlen : (maternCovList (maternParams [0, 0, Real.log 3]) [0, 3] [1, 1]
      (.scalar 1)).length = 2 := by
    simp [maternCovList]
  have h1 := hc 1 (by rw [hlen])
  rw [leadMinor, Matrix.det_fin_two] at h1
  simp only [Matrix.of_apply, symUp] at h1
  norm_num at h1
  rw [matern_bad_entry_01, matern_bad_entry_diag 0 (by norm_num),
    matern_bad_entry_diag 1 (by norm_num)] at h1
  nlinarith [Real.add_one_lt_exp (show (3:ℝ) ≠ 0 by norm_num), Real.exp_pos (3:ℝ)]

lemma mRun1 : computeStep maternVariant m0 none none none false = .failed m1 := by
  rw [m0_eq]
  simp only [computeStep, updateParams, updateData, maternVariant]
  simp only [reduceCtorEq, if_false]
  rw [if_neg (by simp)]
  rw [if_neg notCholOk_matern]
  rfl

lemma mRun2 : computeStep maternVariant m1 none none none false = .failed m2 := by
  simp only [computeStep, updateParams, updateData, maternVariant, m1]
  simp only [eq_self_iff_true, if_true, Bool.false_and, Bool.and_false,
    Bool.true_and, Bool.and_true, Bool.not_false]
  rw [if_neg (by simp), if_neg notCholOk_matern]
  rfl

lemma esCovList_100_ne_000 :
    esCovList (esParams [1, 0, 0]) [0] [1] (.scalar 1) ≠
      esCovList (esParams [0, 0, 0]) [0] [1] (.scalar 1) := by
  intro h
  have he := congrArg (fun m => entryLL m 0 0) h
  simp only at he
  rw [esCovList_entry _ _ _ _ 0 0 (by norm_num) (by norm_num),
      esCovList_entry _ _ _ _ 0 0 (by norm_num) (by norm_num)] at he
  have hf : fluxNontrivL (FluxVal.scalar (1:ℝ)) = False :=
    eq_false (by simp [fluxNontrivL])
  simp only [hf, if_false] at he
  simp only [esParams, List.getD_cons_zero, List.getD_cons_succ] at he
  norm_num [Real.exp_zero] at he
  nlinarith [Real.add_one_lt_exp (show (2:ℝ) ≠ 0 by norm_num), Real.exp_pos (2:ℝ)]

lemma getD_set_self (l : List ℝ) (i : ℕ) (x : ℝ) (hi : i < l.length) :
    (l.set i x).getD i 0 = x := by
  induction l generalizing i with
  | nil => simp at hi
  | cons a t ih =>
    cases i with
    | zero => rfl
    | succ n =>
      simp only [List.set, List.getD_cons_succ]
      exact ih n (by simpa using hi)

lemma list_set_ne (l : List ℝ) (i : ℕ) (x : ℝ) (hi : i < l.length)
    (hx : x ≠ l.getD i 0) : l.set i x ≠ l := by
  intro h
  apply hx
  rw [← getD_set_self l i x hi, h]

lemma esParams_set_ne (k : List ℝ) (i : ℕ) (x : ℝ) (hlen : k.length = 3)
    (hi : i < 3) (hx : x ≠ k.getD i 0) :
    esParams (k.set i x) ≠ esParams k := by
  obtain ⟨a, b, c, rfl⟩ := List.length_eq_three.mp hlen
  interval_cases i <;>
  · intro h
    apply hx
    simp only [esParams, List.set, List.getD_cons_zero, List.getD_cons_succ,
      Prod.mk.injEq, Real.exp_eq_exp] at h
    simp_all

/-! ## Claim theorems -/

/-- C1: the claim asserts that the cheap path of `compute` only ever
serves a factorization built from the current parameters and data, and
that the cleanliness flags go from `false` to `true` only inside a
successful rebuild, never through `update_params`/`update_data` alone.
The code refutes it: after a successful `compute` (`es0 → es1`), the
caller overwrites `kernel` with `[1, 0, 0]`; a first `update_params`
leaves `params_clean = false` but caches the new parameters, and a
second `update_params` then *sets `params_clean` back to `true`* with no
rebuild (gp.py 57 assigns the equality result rather than AND-ing it).
The next `compute` therefore takes the cheap path and serves the
factorization of the old covariance `[[3]]`, although the covariance of
the current parameters differs. -/
theorem c1_cheap_path_serves_stale_factorization :
    computeStep esVariant es0 none none none false = .rebuilt es1 ∧
    c1s2.params_clean = false ∧
    c1s3.params_clean = true ∧
    computeStep esVariant c1s3 none none none false = .cheap c1final ∧
    c1final.factorized_Sigma =
      some (esCovList (esParams [0, 0, 0]) [0] [1] (.scalar 1)) ∧
    esCovList (esParams c1final.kernel) [0] [1] c1final._flux ≠
      esCovList (esParams [0, 0, 0]) [0] [1] (.scalar 1) := by
  refine ⟨esRun1, ?_, ?_, c1cheap, rfl, ?_⟩
  · rw [c1s2_eq]
  · rw [c1s3_eq]; rfl
  · show esCovList (esParams [1, 0, 0]) [0] [1] (.scalar 1) ≠
      esCovList (esParams [0, 0, 0]) [0] [1] (.scalar 1)
    exact esCovList_100_ne_000

/-- C9: the claim asserts that a rebuilding `compute` whose
log-determinant check fails raises (it does: the model's `failed`
outcome) *and* that neither cleanliness flag is set to `true` by such a
call.  The second half is refuted: on a non-positive-definite `Matern`
covariance the first `compute` fails leaving `params_clean = false`, and
an immediately repeated `compute` — which again rebuilds and again
fails before the finiteness check passes — nevertheless sets
`params_clean` from `false` to `true` through its initial
`update_params` (gp.py 57). -/
theorem c9_failed_rebuild_sets_params_clean :
    computeStep maternVariant m0 none none none false = .failed m1 ∧
    m1.params_clean = false ∧
    computeStep maternVariant m1 none none none false = .failed m2 ∧
    m2.params_clean = true ∧
    ¬ cholOk (maternCovList (maternParams [0, 0, Real.log 3]) [0, 3] [1, 1]
        (.scalar 1)) :=
  ⟨mRun1, rfl, mRun2, rfl, notCholOk_matern⟩

/-- C4: after a successful `compute`, an immediately repeated `compute`
with the same kernel and identical-or-omitted data and `force = False`
takes the cheap path and leaves the state (factorization, `log_det`,
both flags) completely unchanged; and changing any single scalar of the
(3-element) kernel vector, or any single element of the cached
wavelength or uncertainty vector, makes the next `compute` go to the
rebuild path exactly once.  Stated for the `ExpSquared` variant, whose
`kernel_to_params` (componentwise `exp`) is injective. -/
theorem c4_compute_cache_correctness (st st1 : GPState (ℝ × ℝ × ℝ))
    (wave sigma : Option (List ℝ)) (flux : Option (FluxVal ℝ)) (force : Bool)
    (h : computeStep esVariant st wave sigma flux force = .rebuilt st1) :
    (computeStep esVariant st1 none none none false = .cheap st1) ∧
    (computeStep esVariant st1 st1._wave st1._sigma (some st1._flux) false =
      .cheap st1) ∧
    (∀ i x, st1.kernel.length = 3 → i < 3 → x ≠ st1.kernel.getD i 0 →
      rebuildCount (computeStep esVariant (setKernel st1 (st1.kernel.set i x))
        none none none false) = 1) ∧
    (∀ wv i x, st1._wave = some wv → i < wv.length → x ≠ wv.getD i 0 →
      rebuildCount (computeStep esVariant st1 (some (wv.set i x)) none none false)
        = 1) ∧
    (∀ sv i x, st1._sigma = some sv → i < sv.length → x ≠ sv.getD i 0 →
      rebuildCount (computeStep esVariant st1 none (some (sv.set i x)) none false)
        = 1) := by
  obtain ⟨hp, hd, hker, hP, wv0, sv0, hw0, hs0, -, -, -⟩ :=
    computeStep_rebuilt_inv esVariant st st1 wave sigma flux force h
  have hP1 : st1._params = some (esVariant.kernel_to_params st1.kernel) := by
    rw [hker]; exact hP
  refine ⟨computeStep_cheap_of_clean _ _ hp hd hP1,
    computeStep_cheap_of_clean_same _ _ hp hd hP1, ?_, ?_, ?_⟩
  · intro i x hlen hi hx
    apply computeStep_rebuild_of_params_ne
    intro hEq
    rw [show (setKernel st1 (st1.kernel.set i x))._params = st1._params from rfl,
      hP1] at hEq
    exact esParams_set_ne st1.kernel i x hlen hi hx (Option.some.inj hEq).symm
  · intro wv i x hwv hi hx
    apply computeStep_rebuild_of_wave_ne
    rw [hwv]
    intro hEq
    exact list_set_ne wv i x hi hx (Option.some.inj hEq).symm
  · intro sv i x hsv hi hx
    apply computeStep_rebuild_of_sigma_ne
    rw [hsv]
    intro hEq
    exact list_set_ne sv i x hi hx (Option.some.inj hEq).symm

/-- Witness for C4 at the concrete one-point `ExpSquared` run. -/
theorem c4_compute_cache_correctness_witness :
    computeStep esVariant es0 none none none false = .rebuilt es1 ∧
    computeStep esVariant es1 none none none false = .cheap es1 ∧
    rebuildCount (computeStep esVariant (setKernel es1 (es1.kernel.set 1 1))
      none none none false) = 1 ∧
    rebuildCount (computeStep esVariant es1 (some ([0].set 0 5)) none none false)
      = 1 ∧
    rebuildCount (computeStep esVariant es1 none (some ([1].set 0 2)) none false)
      = 1 := by
  have h := c4_compute_cache_correctness es0 es1 none none none false esRun1
  refine ⟨esRun1, h.1, ?_, ?_, ?_⟩
  · exact h.2.2.1 1 1 rfl (by norm_num) (by simp [es1])
  · exact h.2.2.2.1 [0] 0 5 rfl (by norm_num) (by norm_num [List.getD_cons_zero])
  · exact h.2.2.2.2 [1] 0 2 rfl (by norm_num) (by norm_num [List.getD_cons_zero])

/-- C7: after a successful `compute`, `lnlikelihood(r)` (with `r` of
the cached data length) first runs `compute()` — a cheap no-op on the
clean state — and returns
`-0.5 * (r . Σ⁻¹ r + log_det + N*log(2π))`, where `Σ` is the covariance
built from the *current* kernel parameters and cached data, the solve is
performed against the cached factorization of exactly that matrix, and
`log_det` is its cached log-determinant. -/
theorem c7_lnlikelihood_formula {P : Type} (V : GPVariant P)
    (st st1 : GPState P) (wave sigma : Option (List ℝ)) (flux : Option (FluxVal ℝ))
    (force : Bool) (r wv sv : List ℝ)
    (h : computeStep V st wave sigma flux force = .rebuilt st1)
    (hw : st1._wave = some wv) (hs : st1._sigma = some sv)
    (hr : r.length = sv.length) :
    lnlikelihoodStep V st1 r = some (st1,
      -(1 / 2) * (residFirstTerm
          (V.construct_covariance (V.kernel_to_params st1.kernel) wv sv st1._flux) r +
        logDetOf (V.construct_covariance (V.kernel_to_params st1.kernel) wv sv
          st1._flux) +
        r.length * Real.log (2 * Real.pi))) := by
  obtain ⟨hp, hd, hker, hP, wv0, sv0, hw0, hs0, hchol, hfact, hld⟩ :=
    computeStep_rebuilt_inv V st st1 wave sigma flux force h
  have hwv : wv0 = wv := by rw [hw0] at hw; exact Option.some.inj hw
  have hsv : sv0 = sv := by rw [hs0] at hs; exact Option.some.inj hs
  subst hwv hsv
  have hP1 : st1._params = some (V.kernel_to_params st1.kernel) := by
    rw [hker]; exact hP
  rw [← hker] at hfact hld
  simp only [lnlikelihoodStep, hs]
  rw [if_pos hr]
  rw [computeStep_cheap_of_clean V st1 hp hd hP1]
  simp only [hfact]
  rw [hld]

/-- Witness for C7 at the concrete one-point `ExpSquared` run. -/
theorem c7_lnlikelihood_formula_witness :
    lnlikelihoodStep esVariant es1 [2] = some (es1,
      -(1 / 2) * (residFirstTerm
          (esVariant.construct_covariance (esVariant.kernel_to_params es1.kernel)
            [0] [1] es1._flux) [2] +
        logDetOf (esVariant.construct_covariance (esVariant.kernel_to_params es1.kernel)
          [0] [1] es1._flux) +
        ([2] : List ℝ).length * Real.log (2 * Real.pi))) :=
  c7_lnlikelihood_formula esVariant es0 es1 none none none false [2] [0] [1]
    esRun1 rfl rfl rfl

/-- C8: `PhotOutlier.construct_covariance` with kernel `[2.0, 3]`
(amplitudes `[2.0]`, locations `[3]`, no trailing jitter), five unit
uncertainties and trivial flux returns the diagonal matrix with diagonal
`[1, 1, 1, 1+4, 1]` and zero off-diagonal entries. -/
theorem c8_photoutlier_concrete_covariance :
    photCov [2, 3] (List.replicate 5 1) (.scalar 1) = some
      [[1, 0, 0, 0, 0], [0, 1, 0, 0, 0], [0, 0, 1, 0, 0],
       [0, 0, 0, 5, 0], [0, 0, 0, 0, 1]] := by
  norm_num [photCov, photParams, fancyAddAt, npIndex, ratTrunc, fluxAllOne,
    List.range_succ]
  norm_num [Int.toNat]

/-- C10: every `predict` call on a `PhotOutlier` instance raises: the
call `construct_covariance_cross(self._wave, ...)` (or with `inwave`)
passes one positional argument to an override whose signature
`(self, **extras)` accepts none, a `TypeError`; the later
`construct_covariance_test` path would raise as well. -/
theorem c10_photoutlier_predict_always_raises
    (kernel sigma : List ℚ) (fluxIn : FluxVal ℚ)
    (sigmaAttr : Option (List (List ℚ))) (residual : List ℚ)
    (inwave influx : Option (List ℚ)) :
    photPredict kernel sigma fluxIn sigmaAttr residual inwave influx =
      .error .typeErr := by
  unfold photPredict callPhotCross
  cases inwave <;> rfl

/-- C2: the claim asserts that `construct_covariance` is symmetric for
every kernel variant.  The `Matern` variant refutes it: its kernel uses
the signed difference `sqrt(3)*(x*-x)/l` with no absolute value, so with
parameters `(s, a², l²) = (1, 1, 3)`, wavelengths `[0, 1]`,
uncertainties `[1, 1]` and trivial flux the covariance has
`C[0,1] = 0` but `C[1,0] = 2/e ≠ 0`. -/
theorem c2_matern_covariance_asymmetric :
    maternCov (1, 1, 3) ![0, 1] ![1, 1] ![1, 1] 0 1 = 0 ∧
    maternCov (1, 1, 3) ![0, 1] ![1, 1] ![1, 1] 1 0 = 2 * Real.exp (-1) ∧
    maternCov (1, 1, 3) ![0, 1] ![1, 1] ![1, 1] 0 1 ≠
      maternCov (1, 1, 3) ![0, 1] ![1, 1] ![1, 1] 1 0 := by
  have h01 : maternCov ((1 : ℝ), 1, 3) ![0, 1] ![1, 1] ![1, 1] 0 1 = 0 := by
    simp only [maternCov, baseCov, maternKernel, Matrix.of_apply,
      if_neg not_fluxNontriv_ones2]
    norm_num [sqrt3_mul_div]
  have h10 : maternCov ((1 : ℝ), 1, 3) ![0, 1] ![1, 1] ![1, 1] 1 0 = 2 * Real.exp (-1) := by
    simp only [maternCov, baseCov, maternKernel, Matrix.of_apply,
      if_neg not_fluxNontriv_ones2]
    norm_num [sqrt3_mul_div]
  refine ⟨h01, h10, ?_⟩
  rw [h01, h10]
  exact (by positivity : (0 : ℝ) < 2 * Real.exp (-1)).ne

/-- C5: the claim asserts that with amplitude `a² → 0` both smooth
variants degenerate to the diagonal matrix `diag(σ² + s²)`.  For the
`Matern` variant the off-diagonal entries of `construct_covariance` do
not depend on `a²` at all (the amplitude is dropped by
`construct_kernel`), and at wavelengths `[0, 1]` with `l² = 3` the entry
`C[1,0]` equals `2/e ≠ 0` for every amplitude, hence also in the limit
`a² → 0`, where the claim requires it to vanish. -/
theorem c5_matern_no_zero_amplitude_degeneration :
    (∀ asq : ℝ, maternCov (1, asq, 3) ![0, 1] ![1, 1] ![1, 1] 1 0 = 2 * Real.exp (-1)) ∧
    2 * Real.exp (-1) ≠ 0 := by
  constructor
  · intro asq
    simp only [maternCov, baseCov, maternKernel, Matrix.of_apply,
      if_neg not_fluxNontriv_ones2]
    norm_num [sqrt3_mul_div]
  · positivity

/-- C6: the claim asserts that every covariance block builder scales
kernel terms as `flux_i * K_ij * flux_j` with the flux associated to
each point.  `construct_covariance_test` (gp.py 223) instead multiplies
by the query *wavelength* vector on the right: with training flux `[3]`
(non-trivial, so scaling is active), query wavelength `[5]`, query flux
`[2]` and parameters `(1, 1, 1)`, the returned entry is
`influx_0 * K_00 * inwave_0 = 2 * 1 * 5 = 10`, whereas the claimed
scaling gives `influx_0 * K_00 * influx_0 = 2 * 1 * 2 = 4`. -/
theorem c6_test_block_scales_by_wavelength :
    esTest (1, 1, 1) ![3] ![5] ![2] 0 0 = 10 ∧
    (2 : ℝ) * esKernel (1, 1, 1) ![5] ![5] 0 0 * 2 = 4 ∧
    (10 : ℝ) ≠ 4 := by
  have hf : fluxNontriv ![(3 : ℝ)] := ⟨0, by norm_num⟩
  refine ⟨?_, ?_, by norm_num⟩
  · simp only [esTest, testCovOf, esKernel, Matrix.of_apply, if_pos hf]
    norm_num
  · simp only [esKernel, Matrix.of_apply]
    norm_num

/-- C3: the claim asserts that `predict` returns the posterior
covariance `Σ_test - Σ_cross Σ⁻¹ Σ_crossᵗ` and that in-sample posterior
variances are strictly below the prior variances.  The source computes
`Sigma_test - Sigma_cross . cho_solve(factor, -Sigma_cross.T)`
(gp.py 159-160), i.e. `Σ_test + Σ_cross Σ⁻¹ Σ_crossᵗ`: in the concrete
one-point scenario the returned variance is `4/3`, the prior variance is
`1` (not a strict decrease), and the value demanded by the claim is
`2/3`.  (The returned mean `Σ_cross Σ⁻¹ r = 2/3` does follow the
claimed formula.)  In CPython the call would moreover raise `TypeError`
before returning, since `construct_covariance_test` invokes
`construct_diagonal(test=True)` while the `ExpSquared` override accepts
no `test` argument. -/
theorem c3_predict_covariance_sign_flipped :
    c3res.1 0 = 2 / 3 ∧
    c3res.2 0 0 = 4 / 3 ∧
    esTest c3p ![1] ![0] ![1] 0 0 = 1 ∧
    ¬ ((4 : ℝ) / 3 < 1) ∧
    (esTest c3p ![1] ![0] ![1] - esCross c3p ![0] ![1] ![0] ![1] *
      choSolveM c3fact (esCross c3p ![0] ![1] ![0] ![1]).transpose) 0 0 = 2 / 3 ∧
    (4 : ℝ) / 3 ≠ 2 / 3 := by
  have hS : esCross c3p ![0] ![1] ![0] ![1] 0 0 = 1 := by
    simp [esCross, crossCovOf, esKernel, c3p, if_neg not_fluxNontriv_one1]
  have hT : esTest c3p ![1] ![0] ![1] 0 0 = 1 := by
    simp [esTest, testCovOf, esKernel, c3p, if_neg not_fluxNontriv_one1]
  have hinv : c3fact⁻¹ 0 0 = 3⁻¹ := by rw [matInvFinOne, c3fact_val]
  refine ⟨?_, ?_, hT, by norm_num, ?_, by norm_num⟩
  · show (esCross c3p ![0] ![1] ![0] ![1]).mulVec (choSolveV c3fact ![2]) 0 = 2 / 3
    simp only [Matrix.mulVec, choSolveV, Matrix.dotProduct, Fin.sum_univ_one]
    rw [hS, hinv]
    norm_num
  · show (esTest c3p ![1] ![0] ![1] - esCross c3p ![0] ![1] ![0] ![1] *
      choSolveM c3fact (-(esCross c3p ![0] ![1] ![0] ![1]).transpose)) 0 0 = 4 / 3
    simp only [choSolveM, Matrix.sub_apply, Matrix.mul_apply, Fin.sum_univ_one,
      Matrix.neg_apply, Matrix.transpose_apply]
    rw [hS, hT, hinv]
    norm_num
  · simp only [choSolveM, Matrix.sub_apply, Matrix.mul_apply, Fin.sum_univ_one,
      Matrix.transpose_apply]
    rw [hS, hT, hinv]
    norm_num

end GP
